import Mathlib

/-!
# CampGuard — verification of the control/decision core

Shallow embedding of `src/CampGuard.js`: an event-driven controller that
keeps the AC-input current of a power station below a grid limit.  Power
and voltage values are JavaScript numbers, modelled as rationals; Unix
timestamps (seconds) are modelled as integers.  Each JS function becomes a
pure Lean function; outbound effects (MQTT SET publishes, switch-on RPCs)
become explicit outputs.
-/

namespace CampGuard

/-- JavaScript `Math.floor` (computable form). -/
def jsFloor (x : ℚ) : ℤ := x.floor

/-- JavaScript `Math.round`: round half toward positive infinity. -/
def jsRound (x : ℚ) : ℤ := (x + 1/2).floor

lemma ratFloor_eq_intFloor (x : ℚ) : x.floor = ⌊x⌋ := by
  rw [Rat.floor_def', Rat.floor_def]

lemma jsFloor_eq (x : ℚ) : jsFloor x = ⌊x⌋ := ratFloor_eq_intFloor x

lemma jsRound_eq (x : ℚ) : jsRound x = ⌊x + 1/2⌋ := ratFloor_eq_intFloor _

/-- `clamp(v,a,b)` from the source: `v<a?a:(v>b?b:v)`. -/
def clamp (v a b : ℚ) : ℚ := if v < a then a else if v > b then b else v

/-- The `CFG` object (configuration, immutable). -/
structure Config where
  initChargeW : ℚ
  minChargeW : ℚ
  maxChargeW : ℚ
  safetyBufferW : ℚ
  quantW : ℚ
  minDeltaW : ℚ
  windowSec : ℤ
  optimizeEverySec : ℤ
  restoreDelaySec : ℤ
  mqttTimeoutSec : ℤ
  eventTimeoutSec : ℤ
  quotaMaxAgeSec : ℤ
  setThrottleSec : ℤ
  deriving Repr, DecidableEq

/-- The concrete `CFG` values of the source file. -/
def defaultCFG : Config :=
  { initChargeW := 400
    minChargeW := 400
    maxChargeW := 2400
    safetyBufferW := 100
    quantW := 10
    minDeltaW := 20
    windowSec := 10
    optimizeEverySec := 10
    restoreDelaySec := 10
    mqttTimeoutSec := 30
    eventTimeoutSec := 30
    quotaMaxAgeSec := 10
    setThrottleSec := 5 }

/-- `roundQ(w)`: `Math.round(w/CFG.quantW)*CFG.quantW`. -/
def roundQ (cfg : Config) (w : ℚ) : ℚ := (jsRound (w / cfg.quantW) : ℚ) * cfg.quantW

/-- The mutable state object `S`.  Subscription handles are modelled as
generation counters (each re-registration yields a fresh handle). -/
structure State where
  swOn : Bool
  oc : Bool
  voltageV : ℚ
  currentLimitA : ℚ
  lastShellyEvtTS : ℤ
  ocSinceTS : ℤ
  measurements : List (ℤ × ℚ)
  maxP10s : ℚ
  lastTrackedPower : ℚ
  lastTrackedTS : ℤ
  efAcOutW : ℚ
  efStandbyW : ℚ
  efChargeW : ℚ
  lastQuotaTS : ℤ
  lastSetTS : ℤ
  lastOptTS : ℤ
  lastRestoreTryTS : ℤ
  shellyH : ℕ
  mqttQuotaH : ℕ
  mqttReplyH : ℕ
  deriving Repr, DecidableEq

/-- The initial value of `S` in the source. -/
def initState : State :=
  { swOn := false
    oc := false
    voltageV := 230
    currentLimitA := 6
    lastShellyEvtTS := 0
    ocSinceTS := 0
    measurements := []
    maxP10s := 0
    lastTrackedPower := -1
    lastTrackedTS := 0
    efAcOutW := 0
    efStandbyW := 20
    efChargeW := 400
    lastQuotaTS := 0
    lastSetTS := 0
    lastOptTS := 0
    lastRestoreTryTS := 0
    shellyH := 0
    mqttQuotaH := 0
    mqttReplyH := 0 }

/-- `maxGridW()`: `Math.floor(S.currentLimitA * S.voltageV)`. -/
def maxGridW (s : State) : ℤ := jsFloor (s.currentLimitA * s.voltageV)

/-- The peak accumulation loop of `updateMaxP10s`: `maxp` starts at the
initial value and is raised to each strictly larger sample power. -/
def peakFold (init : ℚ) (l : List (ℤ × ℚ)) : ℚ :=
  l.foldl (fun acc m => if acc < m.2 then m.2 else acc) init

/-- `updateMaxP10s()`: prune samples at or beyond the window age and
recompute the peak (starting from 0) over the kept samples.  `t` is the
value `nowS()` returns during the call. -/
def updateMaxP10s (cfg : Config) (t : ℤ) (s : State) : State :=
  let cutoff := t - cfg.windowSec
  let kept := s.measurements.filter (fun m => cutoff < m.1)
  { s with measurements := kept, maxP10s := peakFold 0 kept }

/-- `clearWindow()`. -/
def clearWindow (s : State) : State :=
  { s with measurements := [], maxP10s := 0, lastTrackedPower := -1, lastTrackedTS := 0 }

/-- `trackPower(powerW)`: drop exact duplicates within the same second,
otherwise append the sample and refresh the rolling peak. -/
def trackPower (cfg : Config) (t : ℤ) (s : State) (powerW : ℚ) : State :=
  if powerW = s.lastTrackedPower ∧ t = s.lastTrackedTS then s
  else
    updateMaxP10s cfg t
      { s with lastTrackedPower := powerW, lastTrackedTS := t,
               measurements := s.measurements ++ [(t, powerW)] }

/-- `setEF(targetW)`: the command gateway.  Returns the new state and the
watt value of the emitted MQTT SET command, `none` when throttled. -/
def setEF (cfg : Config) (t : ℤ) (s : State) (targetW : ℚ) : State × Option ℚ :=
  if t - s.lastSetTS < cfg.setThrottleSec then (s, none)
  else
    let v := clamp (roundQ cfg targetW) cfg.minChargeW cfg.maxChargeW
    ({ s with efChargeW := v, lastSetTS := t }, some v)

/-- The "other load" estimate computed inside `doOptimize`. -/
def optOther (s : State) : ℚ :=
  if 0 < s.maxP10s ∧ s.swOn then
    let d := s.maxP10s - s.efChargeW
    if d < 0 ∨ 2000 < d then s.efAcOutW + s.efStandbyW else d
  else s.efAcOutW + s.efStandbyW

/-- The target charge power computed inside `doOptimize` (after rounding,
flooring at 0, subtracting the safety buffer, quantizing and clamping). -/
def optTarget (cfg : Config) (s : State) : ℚ :=
  let other : ℤ := max 0 (jsRound (optOther s))
  clamp (roundQ cfg ((maxGridW s : ℚ) - (other : ℚ) - cfg.safetyBufferW))
    cfg.minChargeW cfg.maxChargeW

/-- `doOptimize()`: issue a SET only when the change is meaningful. -/
def doOptimize (cfg : Config) (t : ℤ) (s : State) : State × Option ℚ :=
  let target := optTarget cfg s
  if cfg.minDeltaW ≤ |target - s.efChargeW| then setEF cfg t s target
  else (s, none)

/-- `tryRestore()`: restore path while the overcurrent latch is set.
Returns the new state, the emitted SET command (if any) and whether a
`Switch.Set {on:true}` RPC was issued. -/
def tryRestore (cfg : Config) (t : ℤ) (s : State) : State × Option ℚ × Bool :=
  if !s.oc then (s, none, false)
  else if t - s.ocSinceTS < cfg.restoreDelaySec then (s, none, false)
  else if t - s.lastRestoreTryTS < 3 then (s, none, false)
  else
    let s1 := { s with lastRestoreTryTS := t }
    if cfg.quotaMaxAgeSec < t - s1.lastQuotaTS then (s1, none, false)
    else
      let expected := cfg.initChargeW + s1.efAcOutW + s1.efStandbyW
      if (maxGridW s1 : ℚ) ≤ expected then (s1, none, false)
      else
        match setEF cfg t s1 cfg.initChargeW with
        | (s2, none) => (s2, none, false)
        | (s2, some v) => (s2, some v, true)

/-- The callback of the `Switch.Set {on:true}` call issued by `tryRestore`:
on success it stamps the optimizer/SET cooldowns. -/
def restoreCb (t : ℤ) (s : State) (err : Bool) : State :=
  if err then s else { s with lastOptTS := t, lastSetTS := t }

/-- `handleToggle(info)`: update the relay state; clear the rolling window
when the switch turns off.  `info.state` is absent or a boolean. -/
def handleToggle (s : State) (st : Option Bool) : State :=
  match st with
  | some b => if b then { s with swOn := true } else clearWindow { s with swOn := false }
  | none => s

/-- `handlePower(info)`: track the sample only while the relay is on and
`info.apower` is a number. -/
def handlePower (cfg : Config) (t : ℤ) (s : State) (apower : Option ℚ) : State :=
  match apower with
  | some p => if s.swOn then trackPower cfg t s p else s
  | none => s

/-- `handleOvercurrent()`: latch the fault, record its time, force the relay
state to off and clear the rolling window. -/
def handleOvercurrent (t : ℤ) (s : State) : State :=
  clearWindow { s with oc := true, ocSinceTS := t, swOn := false }

/-- `handleOvercurrentClear()`: the only code path that clears the latch. -/
def handleOvercurrentClear (s : State) : State := { s with oc := false }

/-- The switch event kinds consumed by the dispatcher (for `switch:0`). -/
inductive ShellyEv where
  | toggle (st : Option Bool)
  | power (apower : Option ℚ)
  | overcurrent
  | overcurrentClear
  | configChanged
  | unknown
  deriving Repr, DecidableEq

/-- The Shelly event dispatcher registered by `registerShellyHandler`:
stamps the freshness timestamp, then dispatches on the event kind.
`config_changed` only fires a `Switch.GetConfig` RPC (its result arrives as
a separate callback), so it has no synchronous state effect. -/
def shellyEvent (cfg : Config) (t : ℤ) (s : State) (e : ShellyEv) : State :=
  let s0 := { s with lastShellyEvtTS := t }
  match e with
  | .toggle st => handleToggle s0 st
  | .power p => handlePower cfg t s0 p
  | .overcurrent => handleOvercurrent t s0
  | .overcurrentClear => handleOvercurrentClear s0
  | .configChanged => s0
  | .unknown => s0

/-- The nested parameter map of a quota message; absent or non-numeric
fields are `none`. -/
structure QuotaParams where
  powGetAcHvOut : Option ℚ
  powOutSumW : Option ℚ
  outputPower : Option ℚ
  deriving Repr, DecidableEq

/-- An inbound quota message: either malformed (JSON parse throws) or a
parameter map. -/
inductive QuotaMsg where
  | malformed
  | ok (p : QuotaParams)
  deriving Repr, DecidableEq

/-- The quota subscription callback: stamps `lastQuotaTS` before parsing;
on parse success updates `efAcOutW` (first field name takes `|v|`, the
alternative takes `max 0 v`) and `efStandbyW` (`max 20 v`). -/
def quotaHandler (t : ℤ) (s : State) (m : QuotaMsg) : State :=
  let s0 := { s with lastQuotaTS := t }
  match m with
  | .malformed => s0
  | .ok p =>
    let s1 :=
      match p.powGetAcHvOut with
      | some v => { s0 with efAcOutW := max 0 |v| }
      | none =>
        match p.powOutSumW with
        | some v => { s0 with efAcOutW := max 0 v }
        | none => s0
    match p.outputPower with
    | some v => { s1 with efStandbyW := max 20 v }
    | none => s1

/-- The result delivered to `pollStatusOnce`'s callback: `none` for an RPC
error, otherwise the (optional) voltage and output fields. -/
structure StatusResult where
  voltage : Option ℚ
  output : Option Bool
  deriving Repr, DecidableEq

/-- The callback of `pollStatusOnce`: syncs voltage and relay state from
the device; never touches the latch. -/
def statusCb (s : State) (r : Option StatusResult) : State :=
  match r with
  | none => s
  | some res =>
    let s1 := match res.voltage with
      | some v => { s with voltageV := v }
      | none => s
    match res.output with
    | some b => { s1 with swOn := b }
    | none => s1

/-- The callback of `pollCurrentLimit`: adopt the device's current limit
when present (writing an unchanged value is a no-op either way). -/
def limitCb (s : State) (r : Option ℚ) : State :=
  match r with
  | some v => { s with currentLimitA := v }
  | none => s

/-- `registerShellyHandler()`: replaces the event-handler handle. -/
def registerShellyHandler (s : State) : State := { s with shellyH := s.shellyH + 1 }

/-- `registerMqttHandlers()`: replaces both MQTT subscription handles. -/
def registerMqttHandlers (s : State) : State :=
  { s with mqttQuotaH := s.mqttQuotaH + 1, mqttReplyH := s.mqttReplyH + 1 }

/-- The watchdog section of `tick()` (step 1): re-register silent
subscriptions.  The returned flag records that `pollStatusOnce` fired a
status RPC (whose result arrives as a later `statusCb` callback). -/
def watchdogStep (cfg : Config) (t : ℤ) (s : State) : State × Bool :=
  let p :=
    if cfg.eventTimeoutSec < t - s.lastShellyEvtTS then
      ({ registerShellyHandler s with lastShellyEvtTS := t }, true)
    else (s, false)
  let s2 :=
    if cfg.mqttTimeoutSec < t - p.1.lastQuotaTS then registerMqttHandlers p.1 else p.1
  (s2, p.2)

/-- Outbound effects of one `tick()`. -/
structure TickOut where
  polledStatus : Bool
  chargeCmd : Option ℚ
  switchOnReq : Bool
  deriving Repr, DecidableEq

/-- `tick()`: watchdogs, window maintenance, then exactly one of the
restore path (while latched) or the periodic optimizer. -/
def tick (cfg : Config) (t : ℤ) (s : State) : State × TickOut :=
  let p := watchdogStep cfg t s
  let s2 := updateMaxP10s cfg t p.1
  if s2.oc then
    match tryRestore cfg t s2 with
    | (s3, cmd, sw) => (s3, ⟨p.2, cmd, sw⟩)
  else if s2.swOn ∧ cfg.optimizeEverySec ≤ t - s2.lastOptTS then
    match doOptimize cfg t s2 with
    | (s3, cmd) => ({ s3 with lastOptTS := t }, ⟨p.2, cmd, false⟩)
  else (s2, ⟨p.2, none, false⟩)

/-- Every handler invocation the controller processes, one at a time. -/
inductive Ev where
  | shelly (e : ShellyEv)
  | quota (m : QuotaMsg)
  | reply
  | statusResult (r : Option StatusResult)
  | limitResult (r : Option ℚ)
  | switchSetResult (err : Bool)
  | tickEv
  deriving Repr, DecidableEq

/-- One step of the controller: dispatch the event at time `t`.  The
`set_reply` subscription callback only logs, so it leaves the state
unchanged. -/
def step (cfg : Config) (t : ℤ) (s : State) (e : Ev) : State :=
  match e with
  | .shelly se => shellyEvent cfg t s se
  | .quota m => quotaHandler t s m
  | .reply => s
  | .statusResult r => statusCb s r
  | .limitResult r => limitCb s r
  | .switchSetResult err => restoreCb t s err
  | .tickEv => (tick cfg t s).1

/-- Run a timed sequence of events from a state. -/
def runEvents (cfg : Config) (s : State) (evs : List (ℤ × Ev)) : State :=
  evs.foldl (fun st p => step cfg p.1 st p.2) s

/-! ## Helper lemmas: the overcurrent latch is untouched outside its two handlers -/

lemma updateMaxP10s_oc (cfg : Config) (t : ℤ) (s : State) :
    (updateMaxP10s cfg t s).oc = s.oc := rfl

lemma trackPower_oc (cfg : Config) (t : ℤ) (s : State) (p : ℚ) :
    (trackPower cfg t s p).oc = s.oc := by
  unfold trackPower
  split <;> rfl

lemma setEF_fst_oc (cfg : Config) (t : ℤ) (s : State) (w : ℚ) :
    (setEF cfg t s w).1.oc = s.oc := by
  unfold setEF
  split <;> rfl

lemma doOptimize_fst_oc (cfg : Config) (t : ℤ) (s : State) :
    (doOptimize cfg t s).1.oc = s.oc := by
  unfold doOptimize
  dsimp only
  split
  · exact setEF_fst_oc ..
  · rfl

lemma tryRestore_fst_oc (cfg : Config) (t : ℤ) (s : State) :
    (tryRestore cfg t s).1.oc = s.oc := by
  unfold tryRestore
  dsimp only
  split
  · rfl
  split
  · rfl
  split
  · rfl
  split
  · rfl
  split
  · rfl
  split
  next s2 _ h => exact (congrArg State.oc (congrArg Prod.fst h.symm)).trans (setEF_fst_oc ..)
  next s2 v h => exact (congrArg State.oc (congrArg Prod.fst h.symm)).trans (setEF_fst_oc ..)

lemma watchdogStep_fst_oc (cfg : Config) (t : ℤ) (s : State) :
    (watchdogStep cfg t s).1.oc = s.oc := by
  unfold watchdogStep registerShellyHandler registerMqttHandlers
  dsimp only
  split <;> split <;> rfl

lemma tick_fst_oc (cfg : Config) (t : ℤ) (s : State) :
    (tick cfg t s).1.oc = s.oc := by
  unfold tick
  have hw := watchdogStep_fst_oc cfg t s
  dsimp only
  split
  · simp [tryRestore_fst_oc, updateMaxP10s_oc, hw]
  split
  · simp [doOptimize_fst_oc, updateMaxP10s_oc, hw]
  · simpa [updateMaxP10s_oc] using hw

/-- Trichotomy: one step either preserves the latch, or it is the fault-trip
handler setting it, or the fault-clear handler clearing it. -/
lemma step_oc_cases (cfg : Config) (t : ℤ) (s : State) (e : Ev) :
    (step cfg t s e).oc = s.oc ∨
    (e = Ev.shelly ShellyEv.overcurrent ∧ (step cfg t s e).oc = true) ∨
    (e = Ev.shelly ShellyEv.overcurrentClear ∧ (step cfg t s e).oc = false) := by
  cases e with
  | shelly se =>
    cases se with
    | toggle st =>
      left
      cases st with
      | some b =>
        by_cases hb : b = true <;>
          simp [step, shellyEvent, handleToggle, clearWindow, hb]
      | none => rfl
    | power p =>
      left
      cases p with
      | some q =>
        simp only [step, shellyEvent, handlePower]
        split
        · exact trackPower_oc ..
        · rfl
      | none => rfl
    | overcurrent => right; left; exact ⟨rfl, rfl⟩
    | overcurrentClear => right; right; exact ⟨rfl, rfl⟩
    | configChanged => left; rfl
    | unknown => left; rfl
  | quota m =>
    left
    cases m with
    | malformed => rfl
    | ok p =>
      simp only [step, quotaHandler]
      rcases p with ⟨ac, osum, op⟩
      cases ac <;> cases osum <;> cases op <;> rfl
  | reply => left; rfl
  | statusResult r =>
    left
    cases r with
    | none => rfl
    | some res =>
      rcases res with ⟨v, o⟩
      cases v <;> cases o <;> rfl
  | limitResult r => left; cases r <;> rfl
  | switchSetResult err =>
    left
    simp only [step, restoreCb]
    split <;> rfl
  | tickEv => left; exact tick_fst_oc ..

/-! ## C1 -/

/-- C1: the overcurrent latch changes false→true only in the fault-trip
handler and true→false only in the fault-clear handler; across any
sequence of other events (ticks, restore attempts, power readings, quota
messages, callbacks) a set latch stays set until an explicit
`overcurrent_clear` event. -/
theorem oc_latch_explicit_transitions_only :
    (∀ (cfg : Config) (t : ℤ) (s : State) (e : Ev),
        (step cfg t s e).oc ≠ s.oc →
        (e = Ev.shelly ShellyEv.overcurrent ∧ (step cfg t s e).oc = true) ∨
        (e = Ev.shelly ShellyEv.overcurrentClear ∧ (step cfg t s e).oc = false)) ∧
    (∀ (cfg : Config) (s : State) (evs : List (ℤ × Ev)),
        s.oc = true →
        (∀ p ∈ evs, p.2 ≠ Ev.shelly ShellyEv.overcurrentClear) →
        (runEvents cfg s evs).oc = true) := by
  constructor
  · intro cfg t s e hne
    rcases step_oc_cases cfg t s e with h | h | h
    · exact absurd h hne
    · exact Or.inl h
    · exact Or.inr h
  · intro cfg s evs
    induction evs generalizing s with
    | nil => intro h _; exact h
    | cons p rest ih =>
      intro hoc hnc
      have hp : p.2 ≠ Ev.shelly ShellyEv.overcurrentClear := hnc p (List.mem_cons_self ..)
      have hstep : (step cfg p.1 s p.2).oc = true := by
        rcases step_oc_cases cfg p.1 s p.2 with h | h | h
        · exact h.trans hoc
        · exact h.2
        · exact absurd h.1 hp
      have := ih (step cfg p.1 s p.2) hstep (fun q hq => hnc q (List.mem_cons_of_mem _ hq))
      simpa [runEvents] using this

/-- Witness for C1: the trip event sets the latch on the initial state, and
a latched state stays latched across a tick and a power reading. -/
theorem oc_latch_explicit_transitions_only_witness :
    ((Ev.shelly ShellyEv.overcurrent = Ev.shelly ShellyEv.overcurrent ∧
        (step defaultCFG 0 initState (Ev.shelly ShellyEv.overcurrent)).oc = true) ∨
      (Ev.shelly ShellyEv.overcurrent = Ev.shelly ShellyEv.overcurrentClear ∧
        (step defaultCFG 0 initState (Ev.shelly ShellyEv.overcurrent)).oc = false)) ∧
    (runEvents defaultCFG { initState with oc := true }
        [(1, Ev.tickEv), (2, Ev.shelly (ShellyEv.power (some 500)))]).oc = true := by
  constructor
  · exact oc_latch_explicit_transitions_only.1 defaultCFG 0 initState
      (Ev.shelly ShellyEv.overcurrent) (by decide)
  · exact oc_latch_explicit_transitions_only.2 defaultCFG { initState with oc := true }
      [(1, Ev.tickEv), (2, Ev.shelly (ShellyEv.power (some 500)))] rfl (by decide)

/-! ## Helper lemmas: clamp and quantization -/

lemma clamp_bounds (v a b : ℚ) (h : a ≤ b) : a ≤ clamp v a b ∧ clamp v a b ≤ b := by
  unfold clamp
  split
  · exact ⟨le_refl a, h⟩
  split
  · exact ⟨h, le_refl b⟩
  next h1 h2 => exact ⟨le_of_not_lt h1, le_of_not_lt h2⟩

lemma clamp_eq_or (v a b : ℚ) : clamp v a b = a ∨ clamp v a b = b ∨ clamp v a b = v := by
  unfold clamp
  split
  · exact Or.inl rfl
  split
  · exact Or.inr (Or.inl rfl)
  · exact Or.inr (Or.inr rfl)

lemma roundQ_multiple (cfg : Config) (x : ℚ) :
    ∃ k : ℤ, roundQ cfg x = k * cfg.quantW :=
  ⟨jsRound (x / cfg.quantW), rfl⟩

/-! ## C4 -/

/-- C4: `setEF` rejects a call within the throttle interval, leaving
`efChargeW` and `lastSetTS` untouched and emitting nothing; otherwise it
emits exactly one command with the quantized, clamped value, records it and
stamps `lastSetTS`; a second call within one throttle interval of a
successful first call is rejected and leaves the first call's values. -/
theorem setEF_throttles_commands :
    ∀ (cfg : Config) (t : ℤ) (s : State) (x : ℚ),
      (t - s.lastSetTS < cfg.setThrottleSec → setEF cfg t s x = (s, none)) ∧
      (cfg.setThrottleSec ≤ t - s.lastSetTS →
        setEF cfg t s x =
          ({ s with efChargeW := clamp (roundQ cfg x) cfg.minChargeW cfg.maxChargeW,
                    lastSetTS := t },
            some (clamp (roundQ cfg x) cfg.minChargeW cfg.maxChargeW))) ∧
      (∀ (t2 : ℤ) (x2 : ℚ), cfg.setThrottleSec ≤ t - s.lastSetTS →
        t2 - t < cfg.setThrottleSec →
        setEF cfg t2 (setEF cfg t s x).1 x2 = ((setEF cfg t s x).1, none)) := by
  intro cfg t s x
  refine ⟨?_, ?_, ?_⟩
  · intro h
    unfold setEF
    simp [h]
  · intro h
    unfold setEF
    simp [not_lt.mpr h]
  · intro t2 x2 h1 h2
    have hfst : (setEF cfg t s x).1.lastSetTS = t := by
      unfold setEF
      simp [not_lt.mpr h1]
    generalize hgen : (setEF cfg t s x).1 = s'
    rw [hgen] at hfst
    unfold setEF
    simp [hfst, h2]

/-- Witness for C4: with the source config, a call 3 s after a successful
SET is rejected; a call 10 s after start succeeds; a follow-up 2 s later is
rejected and keeps the first call's record. -/
theorem setEF_throttles_commands_witness :
    setEF defaultCFG 3 initState 1000 = (initState, none) ∧
    setEF defaultCFG 10 initState 1000 =
      ({ initState with efChargeW := 1000, lastSetTS := 10 }, some 1000) ∧
    setEF defaultCFG 12 (setEF defaultCFG 10 initState 1000).1 2000 =
      ((setEF defaultCFG 10 initState 1000).1, none) := by
  have hclamp : clamp (roundQ defaultCFG 1000) defaultCFG.minChargeW defaultCFG.maxChargeW
      = 1000 := by
    rw [roundQ, jsRound_eq]
    norm_num [defaultCFG, clamp]
  refine ⟨(setEF_throttles_commands defaultCFG 3 initState 1000).1
      (by norm_num [initState, defaultCFG]), ?_, ?_⟩
  · have h := (setEF_throttles_commands defaultCFG 10 initState 1000).2.1
      (by norm_num [initState, defaultCFG])
    rw [h, hclamp]
  · exact (setEF_throttles_commands defaultCFG 10 initState 1000).2.2 12 2000
      (by norm_num [initState, defaultCFG]) (by norm_num [defaultCFG])

/-! ## C5 -/

/-- C5: for any raw target (arbitrarily large or negative), an emitted SET
command carries a value that is a multiple of the quantization step and
lies in `[minChargeW, maxChargeW]` (provided the configured bounds are
themselves step multiples with `min ≤ max`, as in the source `CFG`), and
that value is recorded as `efChargeW`. -/
theorem setEF_value_quantized_clamped :
    ∀ (cfg : Config) (t : ℤ) (s : State) (x v : ℚ),
      0 < cfg.quantW →
      (∃ k : ℤ, cfg.minChargeW = k * cfg.quantW) →
      (∃ k : ℤ, cfg.maxChargeW = k * cfg.quantW) →
      cfg.minChargeW ≤ cfg.maxChargeW →
      (setEF cfg t s x).2 = some v →
      (∃ k : ℤ, v = k * cfg.quantW) ∧ cfg.minChargeW ≤ v ∧ v ≤ cfg.maxChargeW ∧
        (setEF cfg t s x).1.efChargeW = v := by
  intro cfg t s x v _ hmin hmax hle hemit
  by_cases hth : t - s.lastSetTS < cfg.setThrottleSec
  · exfalso
    unfold setEF at hemit
    simp [hth] at hemit
  · have hv : v = clamp (roundQ cfg x) cfg.minChargeW cfg.maxChargeW := by
      unfold setEF at hemit
      simp [hth] at hemit
      exact hemit.symm
    have hrec : (setEF cfg t s x).1.efChargeW =
        clamp (roundQ cfg x) cfg.minChargeW cfg.maxChargeW := by
      unfold setEF
      simp [hth]
    refine ⟨?_, ?_, ?_, hrec.trans hv.symm⟩
    · rcases clamp_eq_or (roundQ cfg x) cfg.minChargeW cfg.maxChargeW with h | h | h
      · rw [hv, h]; exact hmin
      · rw [hv, h]; exact hmax
      · rw [hv, h]; exact roundQ_multiple cfg x
    · rw [hv]; exact (clamp_bounds (roundQ cfg x) _ _ hle).1
    · rw [hv]; exact (clamp_bounds (roundQ cfg x) _ _ hle).2

/-- Witness for C5: a huge raw target is commanded as 2400 W (= 240 × 10),
the configured maximum. -/
theorem setEF_value_quantized_clamped_witness :
    (∃ k : ℤ, (2400 : ℚ) = k * defaultCFG.quantW) ∧
      defaultCFG.minChargeW ≤ 2400 ∧ (2400 : ℚ) ≤ defaultCFG.maxChargeW ∧
      (setEF defaultCFG 10 initState 1000000000).1.efChargeW = 2400 :=
  setEF_value_quantized_clamped defaultCFG 10 initState 1000000000 2400
    (by norm_num [defaultCFG]) ⟨40, by norm_num [defaultCFG]⟩
    ⟨240, by norm_num [defaultCFG]⟩ (by norm_num [defaultCFG])
    (by rw [setEF]
        norm_num [initState, defaultCFG, clamp, roundQ, jsRound_eq])

/-! ## C2 -/

/-- Characterization of `tryRestore`'s outputs while the latch is set: a
command (and the switch-on that follows it) goes out exactly when the
restore delay and the 3 s pacing have elapsed, the quota is fresh, the
expected draw is strictly below the floored watt limit, and the SET
gateway is not throttled. -/
lemma tryRestore_out (cfg : Config) (t : ℤ) (s : State) (hoc : s.oc = true) :
    (tryRestore cfg t s).2 =
      if cfg.restoreDelaySec ≤ t - s.ocSinceTS ∧ 3 ≤ t - s.lastRestoreTryTS ∧
          t - s.lastQuotaTS ≤ cfg.quotaMaxAgeSec ∧
          cfg.initChargeW + s.efAcOutW + s.efStandbyW < (maxGridW s : ℚ) ∧
          cfg.setThrottleSec ≤ t - s.lastSetTS
      then (some (clamp (roundQ cfg cfg.initChargeW) cfg.minChargeW cfg.maxChargeW), true)
      else (none, false) := by
  unfold tryRestore setEF
  dsimp only [maxGridW]
  rw [hoc]
  rw [if_neg (by simp)]
  by_cases h1 : t - s.ocSinceTS < cfg.restoreDelaySec
  · rw [if_pos h1, if_neg (by omega)]
  rw [if_neg h1]
  by_cases h2 : t - s.lastRestoreTryTS < 3
  · rw [if_pos h2, if_neg (by omega)]
  rw [if_neg h2]
  by_cases h3 : cfg.quotaMaxAgeSec < t - s.lastQuotaTS
  · rw [if_pos h3, if_neg (by omega)]
  rw [if_neg h3]
  by_cases h4 : ((jsFloor (s.currentLimitA * s.voltageV) : ℤ) : ℚ) ≤
      cfg.initChargeW + s.efAcOutW + s.efStandbyW
  · rw [if_pos h4, if_neg (fun hC => absurd hC.2.2.2.1 (not_lt.mpr h4))]
  rw [if_neg h4]
  by_cases h5 : t - s.lastSetTS < cfg.setThrottleSec
  · rw [if_pos h5]
    dsimp only
    rw [if_neg (by omega)]
  · rw [if_neg h5]
    dsimp only
    rw [if_pos ⟨by omega, by omega, by omega, not_le.mp h4, by omega⟩]

/-- C2 (amended: the headroom comparison is against the floored watt limit
`maxGridW = floor(currentLimitA * voltageV)`, and when all conditions hold
the command goes out exactly when the SET gateway is not throttled):
while latched, `tryRestore` issues no command and no switch-on unless the
restore delay has elapsed, 3 s have passed since the last attempt, the
quota is fresh, and the expected draw is strictly below the floored limit;
a switch-on is requested only when a command was actually sent. -/
theorem tryRestore_gates_commands :
    ∀ (cfg : Config) (t : ℤ) (s : State), s.oc = true →
      ((tryRestore cfg t s).2.2 = true → ((tryRestore cfg t s).2.1).isSome = true) ∧
      (¬(cfg.restoreDelaySec ≤ t - s.ocSinceTS ∧ 3 ≤ t - s.lastRestoreTryTS ∧
          t - s.lastQuotaTS ≤ cfg.quotaMaxAgeSec ∧
          cfg.initChargeW + s.efAcOutW + s.efStandbyW < (maxGridW s : ℚ)) →
        (tryRestore cfg t s).2.1 = none ∧ (tryRestore cfg t s).2.2 = false) ∧
      ((cfg.restoreDelaySec ≤ t - s.ocSinceTS ∧ 3 ≤ t - s.lastRestoreTryTS ∧
          t - s.lastQuotaTS ≤ cfg.quotaMaxAgeSec ∧
          cfg.initChargeW + s.efAcOutW + s.efStandbyW < (maxGridW s : ℚ)) →
        (cfg.setThrottleSec ≤ t - s.lastSetTS →
          (tryRestore cfg t s).2.1 =
            some (clamp (roundQ cfg cfg.initChargeW) cfg.minChargeW cfg.maxChargeW) ∧
          (tryRestore cfg t s).2.2 = true) ∧
        (t - s.lastSetTS < cfg.setThrottleSec →
          (tryRestore cfg t s).2.1 = none ∧ (tryRestore cfg t s).2.2 = false)) := by
  intro cfg t s hoc
  rw [show (tryRestore cfg t s).2.1 = ((tryRestore cfg t s).2).1 from rfl,
    show (tryRestore cfg t s).2.2 = ((tryRestore cfg t s).2).2 from rfl,
    tryRestore_out cfg t s hoc]
  by_cases hC : cfg.restoreDelaySec ≤ t - s.ocSinceTS ∧ 3 ≤ t - s.lastRestoreTryTS ∧
      t - s.lastQuotaTS ≤ cfg.quotaMaxAgeSec ∧
      cfg.initChargeW + s.efAcOutW + s.efStandbyW < (maxGridW s : ℚ)
  · by_cases h5 : cfg.setThrottleSec ≤ t - s.lastSetTS
    · rw [if_pos ⟨hC.1, hC.2.1, hC.2.2.1, hC.2.2.2, h5⟩]
      exact ⟨fun _ => rfl, fun hn => absurd hC hn,
        fun _ => ⟨fun _ => ⟨rfl, rfl⟩, fun hlt => absurd h5 (not_le.mpr hlt)⟩⟩
    · rw [if_neg (fun hAll => h5 hAll.2.2.2.2)]
      exact ⟨fun h => absurd h (by simp), fun hn => absurd hC hn,
        fun _ => ⟨fun hle => absurd hle h5, fun _ => ⟨rfl, rfl⟩⟩⟩
  · rw [if_neg (fun hAll => hC ⟨hAll.1, hAll.2.1, hAll.2.2.1, hAll.2.2.2.1⟩)]
    exact ⟨fun h => absurd h (by simp), fun _ => ⟨rfl, rfl⟩, fun hAll => absurd hAll hC⟩

/-- Counterexample to C2 as stated: all claim-side conditions hold — in
particular the expected draw 1382.3 W is strictly below the raw product
`currentLimitA * voltageV` = 1382.4 W and the gateway is not throttled —
yet the code compares against the floored limit 1382 W and issues neither
a command nor a switch-on request. -/
def cexRestoreState : State :=
  { initState with oc := true, voltageV := 1152/5, lastQuotaTS := 15,
                   efAcOutW := 9623/10 }

theorem tryRestore_headroom_cex :
    cexRestoreState.oc = true ∧
    defaultCFG.restoreDelaySec ≤ 20 - cexRestoreState.ocSinceTS ∧
    3 ≤ 20 - cexRestoreState.lastRestoreTryTS ∧
    20 - cexRestoreState.lastQuotaTS ≤ defaultCFG.quotaMaxAgeSec ∧
    defaultCFG.setThrottleSec ≤ 20 - cexRestoreState.lastSetTS ∧
    defaultCFG.initChargeW + cexRestoreState.efAcOutW + cexRestoreState.efStandbyW <
      cexRestoreState.currentLimitA * cexRestoreState.voltageV ∧
    (tryRestore defaultCFG 20 cexRestoreState).2.1 = none ∧
    (tryRestore defaultCFG 20 cexRestoreState).2.2 = false := by
  have hgrid : maxGridW cexRestoreState = 1382 := by
    rw [maxGridW, jsFloor_eq]
    norm_num [cexRestoreState, initState]
  have hout := tryRestore_out defaultCFG 20 cexRestoreState rfl
  rw [if_neg (by
    intro hAll
    have := hAll.2.2.2.1
    rw [hgrid] at this
    norm_num [defaultCFG, cexRestoreState, initState] at this)] at hout
  refine ⟨rfl, by norm_num [cexRestoreState, initState, defaultCFG],
    by norm_num [cexRestoreState, initState],
    by norm_num [cexRestoreState, initState, defaultCFG],
    by norm_num [cexRestoreState, initState, defaultCFG],
    by norm_num [cexRestoreState, initState, defaultCFG], ?_, ?_⟩
  · rw [show (tryRestore defaultCFG 20 cexRestoreState).2.1 =
      ((tryRestore defaultCFG 20 cexRestoreState).2).1 from rfl, hout]
  · rw [show (tryRestore defaultCFG 20 cexRestoreState).2.2 =
      ((tryRestore defaultCFG 20 cexRestoreState).2).2 from rfl, hout]

/-- Witness for the amended C2: a latched state with fresh quota, elapsed
delays and ample floored headroom gets a 400 W command and a switch-on. -/
def readyRestoreState : State :=
  { initState with oc := true, lastQuotaTS := 15, efAcOutW := 200 }

theorem tryRestore_gates_commands_witness :
    (tryRestore defaultCFG 20 readyRestoreState).2.1 = some 400 ∧
    (tryRestore defaultCFG 20 readyRestoreState).2.2 = true := by
  have hgrid : maxGridW readyRestoreState = 1380 := by
    rw [maxGridW, jsFloor_eq]
    norm_num [readyRestoreState, initState]
  have h := ((tryRestore_gates_commands defaultCFG 20 readyRestoreState rfl).2.2
      ⟨by norm_num [readyRestoreState, initState, defaultCFG],
        by norm_num [readyRestoreState, initState],
        by norm_num [readyRestoreState, initState, defaultCFG],
        by rw [hgrid]; norm_num [readyRestoreState, initState, defaultCFG]⟩).1
    (by norm_num [readyRestoreState, initState, defaultCFG])
  have hclamp : clamp (roundQ defaultCFG defaultCFG.initChargeW)
      defaultCFG.minChargeW defaultCFG.maxChargeW = 400 := by
    rw [roundQ, jsRound_eq]
    norm_num [defaultCFG, clamp]
  rw [h.1, h.2, hclamp]
  exact ⟨rfl, rfl⟩

/-! ## C3 -/

/-- The claim's wording of the optimizer's "other load" estimate, for a
state with the switch on: peak minus charge command when the peak is
positive, with fallback to the telemetry estimate when that difference is
negative or exceeds 2000 W, or when the peak is not positive. -/
def specOtherC3 (s : State) : ℚ :=
  if 0 < s.maxP10s then
    if s.maxP10s - s.efChargeW < 0 ∨ 2000 < s.maxP10s - s.efChargeW then
      s.efAcOutW + s.efStandbyW
    else s.maxP10s - s.efChargeW
  else s.efAcOutW + s.efStandbyW

/-- The claim's wording of the optimizer target:
`clamp(quantize(limit − other − safety_buffer), min, max)` with
`limit = floor(currentLimitA × voltageV)` and `other` clamped to ≥ 0 and
then rounded. -/
def specTargetC3 (cfg : Config) (s : State) : ℚ :=
  clamp (roundQ cfg ((⌊s.currentLimitA * s.voltageV⌋ : ℚ) -
      (jsRound (max 0 (specOtherC3 s)) : ℚ) - cfg.safetyBufferW))
    cfg.minChargeW cfg.maxChargeW

/-- Rounding then flooring at zero agrees with flooring at zero then
rounding (JS `Math.max(0, Math.round(x))` = `Math.round(Math.max(0, x))`). -/
lemma jsRound_max_zero (x : ℚ) : (max 0 (jsRound x) : ℤ) = jsRound (max 0 x) := by
  rcases le_or_lt 0 x with h | h
  · rw [max_eq_right h, max_eq_right]
    rw [jsRound_eq]
    exact Int.le_floor.mpr (by push_cast; linarith)
  · rw [max_eq_left h.le]
    have h0 : jsRound 0 = 0 := by rw [jsRound_eq]; norm_num
    rw [h0]
    refine max_eq_left ?_
    rw [jsRound_eq]
    have hle := Int.floor_le_floor (α := ℚ) (show x + 1/2 ≤ 0 + 1/2 by linarith)
    have h12 : (⌊(0:ℚ) + 1/2⌋ : ℤ) = 0 := by norm_num
    rw [h12] at hle
    exact hle

/-- C3: with the latch clear and the switch on, the optimizer's "other
load" estimate and target agree with the claim's formulas, and a command
is issued only if the target differs from the last commanded value by at
least `minDeltaW`. -/
theorem doOptimize_matches_spec :
    ∀ (cfg : Config) (t : ℤ) (s : State), s.swOn = true → s.oc = false →
      optOther s = specOtherC3 s ∧
      optTarget cfg s = specTargetC3 cfg s ∧
      ((doOptimize cfg t s).2 ≠ none →
        cfg.minDeltaW ≤ |specTargetC3 cfg s - s.efChargeW|) := by
  intro cfg t s hsw _
  have hother : optOther s = specOtherC3 s := by
    unfold optOther specOtherC3
    simp [hsw]
  have htarget : optTarget cfg s = specTargetC3 cfg s := by
    unfold optTarget specTargetC3
    rw [hother, jsRound_max_zero, maxGridW, jsFloor_eq]
  refine ⟨hother, htarget, ?_⟩
  intro hne
  rw [← htarget]
  unfold doOptimize at hne
  dsimp only at hne
  by_cases hd : cfg.minDeltaW ≤ |optTarget cfg s - s.efChargeW|
  · exact hd
  · rw [if_neg hd] at hne
    exact absurd rfl hne

/-- Witness for C3 (spec §8 example): limit 1380 W, peak 1260 W over a
960 W command gives other = 300 W, target 980 W; the 20 W delta meets
`minDeltaW`, so the 980 W command goes out. -/
def optState : State :=
  { initState with swOn := true, maxP10s := 1260, efChargeW := 960 }

theorem doOptimize_matches_spec_witness :
    (doOptimize defaultCFG 20 optState).2 = some 980 ∧
    defaultCFG.minDeltaW ≤ |specTargetC3 defaultCFG optState - optState.efChargeW| := by
  have heval : (doOptimize defaultCFG 20 optState).2 = some 980 := by
    simp only [doOptimize, optTarget, optOther, maxGridW, setEF, jsFloor_eq, jsRound_eq,
      roundQ, clamp, optState, initState, defaultCFG]
    norm_num
  refine ⟨heval, (doOptimize_matches_spec defaultCFG 20 optState rfl rfl).2.2 ?_⟩
  rw [heval]
  simp

/-! ## C6 -/

lemma peakFold_init_le (init : ℚ) (l : List (ℤ × ℚ)) : init ≤ peakFold init l := by
  induction l generalizing init with
  | nil => exact le_refl init
  | cons a l ih =>
    unfold peakFold
    rw [List.foldl_cons]
    refine le_trans ?_ (ih _)
    split
    · exact le_of_lt (by assumption)
    · exact le_refl init

lemma peakFold_mem_le (init : ℚ) (l : List (ℤ × ℚ)) :
    ∀ m ∈ l, m.2 ≤ peakFold init l := by
  induction l generalizing init with
  | nil => intro m hm; cases hm
  | cons a l ih =>
    intro m hm
    unfold peakFold
    rw [List.foldl_cons]
    rcases List.mem_cons.mp hm with h | h
    · subst h
      refine le_trans ?_ (peakFold_init_le _ l)
      split
      · exact le_refl m.2
      · exact le_of_not_lt (by assumption)
    · exact ih _ m h

lemma peakFold_eq_init_or_mem (init : ℚ) (l : List (ℤ × ℚ)) :
    peakFold init l = init ∨ ∃ m ∈ l, peakFold init l = m.2 := by
  induction l generalizing init with
  | nil => exact Or.inl rfl
  | cons a l ih =>
    unfold peakFold
    rw [List.foldl_cons]
    by_cases h : init < a.2
    · rw [if_pos h]
      rcases ih a.2 with h2 | ⟨m, hm, h2⟩
      · exact Or.inr ⟨a, List.mem_cons_self .., h2⟩
      · exact Or.inr ⟨m, List.mem_cons_of_mem a hm, h2⟩
    · rw [if_neg h]
      rcases ih init with h2 | ⟨m, hm, h2⟩
      · exact Or.inl h2
      · exact Or.inr ⟨m, List.mem_cons_of_mem a hm, h2⟩

/-- C6 (amended: a sample qualifies when its age is strictly below the
window length — a sample aged exactly `windowSec` is discarded — and the
returned peak is the maximum of 0 and the qualifying powers, so it is 0
rather than a negative maximum): `updateMaxP10s` keeps exactly the
qualifying samples and `maxP10s` bounds them from above, is non-negative,
and is attained by a qualifying sample whenever it is nonzero. -/
theorem updateMaxP10s_prunes_and_peaks :
    ∀ (cfg : Config) (t : ℤ) (s : State),
      (updateMaxP10s cfg t s).measurements =
        s.measurements.filter (fun m => t - cfg.windowSec < m.1) ∧
      0 ≤ (updateMaxP10s cfg t s).maxP10s ∧
      (∀ m ∈ s.measurements, t - m.1 < cfg.windowSec →
        m.2 ≤ (updateMaxP10s cfg t s).maxP10s) ∧
      ((updateMaxP10s cfg t s).maxP10s = 0 ∨
        ∃ m ∈ s.measurements, t - m.1 < cfg.windowSec ∧
          (updateMaxP10s cfg t s).maxP10s = m.2) := by
  intro cfg t s
  have hmax : (updateMaxP10s cfg t s).maxP10s =
      peakFold 0 (s.measurements.filter (fun m => t - cfg.windowSec < m.1)) := rfl
  refine ⟨rfl, ?_, ?_, ?_⟩
  · rw [hmax]
    exact peakFold_init_le 0 _
  · intro m hm hage
    rw [hmax]
    refine peakFold_mem_le 0 _ m (List.mem_filter.mpr ⟨hm, ?_⟩)
    simp only [decide_eq_true_eq]
    omega
  · rw [hmax]
    rcases peakFold_eq_init_or_mem 0
        (s.measurements.filter (fun m => t - cfg.windowSec < m.1)) with h | ⟨m, hm, h⟩
    · exact Or.inl h
    · have hm2 := List.mem_filter.mp hm
      refine Or.inr ⟨m, hm2.1, ?_, h⟩
      have := hm2.2
      simp only [decide_eq_true_eq] at this
      omega

/-- Counterexample to C6 as stated: at `now = 10` with a 10 s window, the
sample `(0, 100)` has age exactly the window length, so the claim counts
it as qualifying (maximum 100, sample retained); the code prunes it and,
because the other kept sample has negative power, returns 0 — not the
claimed maximum. -/
def cexWindowState : State :=
  { initState with measurements := [(0, 100), (6, -50)], maxP10s := 100 }

theorem updateMaxP10s_age_boundary_cex :
    defaultCFG.windowSec = 10 ∧
    cexWindowState.measurements = [(0, 100), (6, -50)] ∧
    (10 - (0 : ℤ)) ≤ defaultCFG.windowSec ∧
    (updateMaxP10s defaultCFG 10 cexWindowState).maxP10s = 0 ∧
    (updateMaxP10s defaultCFG 10 cexWindowState).measurements = [(6, -50)] := by
  refine ⟨rfl, rfl, by norm_num [defaultCFG], ?_, ?_⟩
  · show peakFold 0
      (cexWindowState.measurements.filter (fun m => 10 - defaultCFG.windowSec < m.1)) = 0
    rw [show cexWindowState.measurements.filter
          (fun m => 10 - defaultCFG.windowSec < m.1) = [(6, -50)] from by
        simp [cexWindowState, initState, defaultCFG]]
    unfold peakFold
    rw [List.foldl_cons, List.foldl_nil, if_neg (by norm_num)]
  · show cexWindowState.measurements.filter
      (fun m => 10 - defaultCFG.windowSec < m.1) = [(6, -50)]
    simp [cexWindowState, initState, defaultCFG]

/-- Witness for C6: a 5 s old sample of 100 W inside a 10 s window is kept
and bounded by the returned peak. -/
def winWindowState : State := { initState with measurements := [(5, 100)] }

theorem updateMaxP10s_prunes_and_peaks_witness :
    (updateMaxP10s defaultCFG 10 winWindowState).measurements =
      winWindowState.measurements.filter (fun m => 10 - defaultCFG.windowSec < m.1) ∧
    (100 : ℚ) ≤ (updateMaxP10s defaultCFG 10 winWindowState).maxP10s := by
  have h := updateMaxP10s_prunes_and_peaks defaultCFG 10 winWindowState
  refine ⟨h.1, ?_⟩
  have := h.2.2.1 (5, 100) (by simp [winWindowState, initState])
    (by norm_num [winWindowState, initState, defaultCFG])
  simpa using this

/-! ## C7 -/

/-- C7: a toggle-off notification and the fault-trip handler both empty
the rolling window immediately (a subsequent prune returns a 0 peak until
new samples arrive), and the trip handler additionally forces the relay
state to off (and latches the fault). -/
theorem window_cleared_on_off_and_trip :
    ∀ (cfg : Config) (t t' : ℤ) (s : State),
      (shellyEvent cfg t s (ShellyEv.toggle (some false))).measurements = [] ∧
      (shellyEvent cfg t s (ShellyEv.toggle (some false))).maxP10s = 0 ∧
      (updateMaxP10s cfg t' (shellyEvent cfg t s (ShellyEv.toggle (some false)))).maxP10s = 0 ∧
      (shellyEvent cfg t s ShellyEv.overcurrent).measurements = [] ∧
      (shellyEvent cfg t s ShellyEv.overcurrent).maxP10s = 0 ∧
      (updateMaxP10s cfg t' (shellyEvent cfg t s ShellyEv.overcurrent)).maxP10s = 0 ∧
      (shellyEvent cfg t s ShellyEv.overcurrent).swOn = false ∧
      (shellyEvent cfg t s ShellyEv.overcurrent).oc = true := by
  intro cfg t t' s
  exact ⟨rfl, rfl, rfl, rfl, rfl, rfl, rfl, rfl⟩

/-! ## C8 -/

/-- C8 (amended: the synchronous watchdog section touches only the
subscription handles and the switch freshness timestamp, and never the
latch, relay state or command history; but the one-shot status re-sync
completion may additionally update `voltageV` and `swOn` to the
device-reported values — it is not a pure no-op on the switch state): both
parts leave `oc`, `efChargeW` and `lastSetTS` untouched. -/
theorem watchdog_and_resync_frame :
    ∀ (cfg : Config) (t : ℤ) (s : State) (r : Option StatusResult),
      (∃ ts h1 h2 h3, (watchdogStep cfg t s).1 =
        { s with lastShellyEvtTS := ts, shellyH := h1, mqttQuotaH := h2,
                 mqttReplyH := h3 }) ∧
      (watchdogStep cfg t s).1.oc = s.oc ∧
      (watchdogStep cfg t s).1.swOn = s.swOn ∧
      (watchdogStep cfg t s).1.efChargeW = s.efChargeW ∧
      (watchdogStep cfg t s).1.lastSetTS = s.lastSetTS ∧
      (∃ v b, statusCb s r = { s with voltageV := v, swOn := b }) ∧
      (statusCb s r).oc = s.oc ∧
      (statusCb s r).efChargeW = s.efChargeW ∧
      (statusCb s r).lastSetTS = s.lastSetTS := by
  intro cfg t s r
  have hw : ∃ ts h1 h2 h3, (watchdogStep cfg t s).1 =
      { s with lastShellyEvtTS := ts, shellyH := h1, mqttQuotaH := h2,
               mqttReplyH := h3 } := by
    unfold watchdogStep registerShellyHandler registerMqttHandlers
    dsimp only
    split <;> split
    · exact ⟨t, s.shellyH + 1, s.mqttQuotaH + 1, s.mqttReplyH + 1, rfl⟩
    · exact ⟨t, s.shellyH + 1, s.mqttQuotaH, s.mqttReplyH, rfl⟩
    · exact ⟨s.lastShellyEvtTS, s.shellyH, s.mqttQuotaH + 1, s.mqttReplyH + 1, rfl⟩
    · exact ⟨s.lastShellyEvtTS, s.shellyH, s.mqttQuotaH, s.mqttReplyH, rfl⟩
  have hs : ∃ v b, statusCb s r = { s with voltageV := v, swOn := b } := by
    unfold statusCb
    cases r with
    | none => exact ⟨s.voltageV, s.swOn, rfl⟩
    | some res =>
      rcases res with ⟨v, o⟩
      cases v <;> cases o
      · exact ⟨s.voltageV, s.swOn, rfl⟩
      · next b => exact ⟨s.voltageV, b, rfl⟩
      · next w => exact ⟨w, s.swOn, rfl⟩
      · next w b => exact ⟨w, b, rfl⟩
  obtain ⟨ts, h1, h2, h3, hw'⟩ := hw
  obtain ⟨v, b, hs'⟩ := hs
  refine ⟨⟨ts, h1, h2, h3, hw'⟩, ?_, ?_, ?_, ?_, ⟨v, b, hs'⟩, ?_, ?_, ?_⟩ <;>
    simp [hw', hs']

/-- Counterexample to C8 as stated: the one-shot status re-sync fired by
the watchdog (the `pollStatusOnce` callback, source lines 408–417) sets
`S.on` and `S.voltageV` from the device report, so with the relay reported
on it flips `swOn` from false to true and rewrites the voltage — the
watchdog actions do not leave the switch_on state untouched. -/
theorem watchdog_resync_mutates_swon_cex :
    initState.swOn = false ∧ initState.voltageV = 230 ∧
    (statusCb initState (some ⟨some 231, some true⟩)).swOn = true ∧
    (statusCb initState (some ⟨some 231, some true⟩)).voltageV = 231 ∧
    (231 : ℚ) ≠ 230 :=
  ⟨rfl, rfl, rfl, rfl, by norm_num⟩

/-! ## C9 -/

/-- C9 (amended: only the first field name `powGetAcHvOut` is ingested as
an absolute value; the alternative `powOutSumW` is floored at 0, so a
negative value is stored as 0, not as its absolute value; either way the
stored value is non-negative): the standby field is floored at the 20 W
minimum overhead, absent fields leave their targets unchanged, and a
malformed payload only stamps the receipt timestamp. -/
theorem quota_ingest_fields :
    ∀ (t : ℤ) (s : State) (p : QuotaParams),
      (∀ v, p.powGetAcHvOut = some v →
        (quotaHandler t s (QuotaMsg.ok p)).efAcOutW = |v|) ∧
      (∀ v, p.powGetAcHvOut = none → p.powOutSumW = some v →
        (quotaHandler t s (QuotaMsg.ok p)).efAcOutW = max 0 v) ∧
      ((p.powGetAcHvOut ≠ none ∨ p.powOutSumW ≠ none) →
        0 ≤ (quotaHandler t s (QuotaMsg.ok p)).efAcOutW) ∧
      (p.powGetAcHvOut = none → p.powOutSumW = none →
        (quotaHandler t s (QuotaMsg.ok p)).efAcOutW = s.efAcOutW) ∧
      (∀ v, p.outputPower = some v →
        (quotaHandler t s (QuotaMsg.ok p)).efStandbyW = max 20 v) ∧
      (p.outputPower = none →
        (quotaHandler t s (QuotaMsg.ok p)).efStandbyW = s.efStandbyW) ∧
      quotaHandler t s QuotaMsg.malformed = { s with lastQuotaTS := t } := by
  intro t s p
  rcases p with ⟨ac, osum, op⟩
  refine ⟨?_, ?_, ?_, ?_, ?_, ?_, rfl⟩
  · intro v hv
    cases ac <;> cases hv
    cases op <;>
      simp [quotaHandler, max_eq_right (abs_nonneg v)]
  · intro v hac hv
    cases ac <;> cases hac
    cases osum <;> cases hv
    cases op <;> simp [quotaHandler]
  · intro hne
    cases ac with
    | some v =>
      cases op <;>
        simp [quotaHandler, le_max_iff, le_refl]
    | none =>
      cases osum with
      | some v => cases op <;> simp [quotaHandler, le_max_iff, le_refl]
      | none => rcases hne with h | h <;> simp at h
  · intro hac hosum
    cases ac <;> cases hac
    cases osum <;> cases hosum
    cases op <;> simp [quotaHandler]
  · intro v hv
    cases op <;> cases hv
    cases ac <;> cases osum <;> simp [quotaHandler]
  · intro hop
    cases op <;> cases hop
    cases ac <;> cases osum <;> simp [quotaHandler]

/-- Counterexample to C9 as stated: a quota message carrying the second
accepted field name with value −50 is stored as `max(0, −50) = 0`, not as
the absolute value 50 the claim requires. -/
def cexQuotaParams : QuotaParams := ⟨none, some (-50), none⟩

theorem quota_powOutSumW_not_abs_cex :
    (quotaHandler 5 initState (QuotaMsg.ok cexQuotaParams)).efAcOutW = 0 ∧
    |(-50 : ℚ)| = 50 ∧ (0 : ℚ) ≠ 50 := by
  refine ⟨?_, by norm_num, by norm_num⟩
  show max 0 (-50 : ℚ) = 0
  norm_num

/-- Witness for C9: a message with `powGetAcHvOut = −30` stores 30 W of
AC-out load, and `outputPower = 5` is floored to the 20 W minimum. -/
theorem quota_ingest_fields_witness :
    (quotaHandler 7 initState (QuotaMsg.ok ⟨some (-30), none, some 5⟩)).efAcOutW = 30 ∧
    (quotaHandler 7 initState (QuotaMsg.ok ⟨some (-30), none, some 5⟩)).efStandbyW = 20 := by
  have h := quota_ingest_fields 7 initState ⟨some (-30), none, some 5⟩
  constructor
  · rw [h.1 (-30) rfl]
    norm_num
  · rw [h.2.2.2.2.1 5 rfl]
    norm_num

/-! ## C10 -/

/-- C10 (amended: processing a power-update notification while the relay
is off leaves the control state unchanged except for the switch freshness
timestamp, which the dispatcher stamps before dispatching; in particular
`handlePower` itself is the identity, so no sample is appended and the
peak is not recomputed): samples are recorded only while the relay is on. -/
theorem power_update_while_off_frame :
    ∀ (cfg : Config) (t : ℤ) (s : State) (p : Option ℚ), s.swOn = false →
      shellyEvent cfg t s (ShellyEv.power p) = { s with lastShellyEvtTS := t } ∧
      handlePower cfg t s p = s := by
  intro cfg t s p hsw
  constructor
  · cases p with
    | some q => simp [shellyEvent, handlePower, hsw]
    | none => rfl
  · cases p with
    | some q => simp [handlePower, hsw]
    | none => rfl

/-- Counterexample to C10 as stated: processing a power update at t = 5
with the relay off does change the control state — the dispatcher stamps
`lastShellyEvtTS` (the spec's `last_switch_event_at` field) from 0 to 5. -/
theorem power_update_while_off_cex :
    initState.swOn = false ∧ initState.lastShellyEvtTS = 0 ∧
    (shellyEvent defaultCFG 5 initState (ShellyEv.power (some 100))).lastShellyEvtTS = 5 ∧
    shellyEvent defaultCFG 5 initState (ShellyEv.power (some 100)) ≠ initState := by
  refine ⟨rfl, rfl, rfl, ?_⟩
  intro h
  have h5 := congrArg State.lastShellyEvtTS h
  simp [shellyEvent, handlePower, initState] at h5

/-- Witness for C10: on the initial (relay-off) state, a 100 W power
update only stamps the freshness timestamp and `handlePower` is the
identity. -/
theorem power_update_while_off_frame_witness :
    shellyEvent defaultCFG 5 initState (ShellyEv.power (some 100)) =
      { initState with lastShellyEvtTS := 5 } ∧
    handlePower defaultCFG 5 initState (some 100) = initState :=
  power_update_while_off_frame defaultCFG 5 initState (some 100) rfl

end CampGuard
